import Mathlib

/-!
Verification development for the Sri Lanka business-intelligence news
pipeline.  The Python sources are shallowly embedded: SQLAlchemy rows become
Lean structures, the SQLite-backed store becomes a `Store` value, floats
become rationals, and each relevant Python function becomes an executable
Lean definition with the same branching structure.
-/

namespace NewsIntel

section

attribute [local semireducible] Rat.add Rat.sub Rat.mul Rat.inv

/-- Embeds the `Article` ORM row of `database/db_manager.py`.
`sentiment` and `category` are nullable columns; `processed` is the 0/1
integer column rendered as `Bool`; `collected_at` is a timestamp on a
rational time axis (hours scale). -/
structure ArticleRow where
  id : Nat
  title : String
  url : String
  source : String
  category : Option String
  sentiment : Option ℚ
  collected_at : ℚ
  processed : Bool
  deriving Repr, DecidableEq

/-- The article table plus the autoincrement counter of the primary key. -/
structure Store where
  articles : List ArticleRow
  nextId : Nat
  deriving Repr, DecidableEq

/-- The empty database created by `Base.metadata.create_all`. -/
def emptyStore : Store := ⟨[], 1⟩

/-- Python truthiness of an optional string (`if category:`):
`None` and the empty string are falsy. -/
def pyTruthyStr : Option String → Bool
  | none => false
  | some c => !(c == "")

/-- The fresh row built by the `Article(...)` constructor inside
`add_article`: unprocessed, with `collected_at` defaulted to now. -/
def newRow (s : Store) (title url source : String)
    (category : Option String) (sentiment : Option ℚ) (now : ℚ) : ArticleRow :=
  { id := s.nextId, title := title, url := url, source := source,
    category := category, sentiment := sentiment,
    collected_at := now, processed := false }

/-- Embeds `DatabaseManager.add_article`.  The UNIQUE constraint on `url` is
part of the schema; on a duplicate URL the INSERT fails, the session is
rolled back (no partial write) and the method returns `None`, embedded here
as the `none` result with the store unchanged.  `now` stands for the
`datetime.now` default of `collected_at`. -/
def add_article (s : Store) (title url source : String)
    (category : Option String) (sentiment : Option ℚ) (now : ℚ) :
    Store × Option Nat :=
  if s.articles.any (fun a => a.url == url) then
    (s, none)
  else
    ({ articles := s.articles ++ [newRow s title url source category sentiment now],
       nextId := s.nextId + 1 }, some s.nextId)

/-- Embeds `DatabaseManager.mark_article_processed`.  The row with the given
primary key (unique, so at most one row matches) gets `processed = 1`;
`category` is overwritten only when truthy (`if category:`), `sentiment`
only when not `None` (`if sentiment is not None:`).  When no row has the
id, `first()` returns `None` and nothing is changed. -/
def mark_article_processed (s : Store) (articleId : Nat)
    (category : Option String) (sentiment : Option ℚ) : Store :=
  { s with
    articles := s.articles.map (fun a =>
      if a.id == articleId then
        { a with
          processed := true,
          category := if pyTruthyStr category then category else a.category,
          sentiment := if sentiment.isSome then sentiment else a.sentiment }
      else a) }

/-- URLs of the stored rows are pairwise distinct — the schema-level UNIQUE
constraint on the `url` column. -/
def urlsNodup (s : Store) : Prop := (s.articles.map (fun a => a.url)).Nodup

instance (s : Store) : Decidable (urlsNodup s) := by
  unfold urlsNodup; infer_instance

/-- The bound normalization that `get_recent_articles`,
`get_category_distribution` and `get_source_distribution` each repeat
verbatim: swap so that the older bound comes first, and treat equal bounds
as "up to now" (newer bound 0). -/
def normalizeWindow (hours hoursEnd : ℚ) : ℚ × ℚ :=
  let p := if hours < hoursEnd then (hoursEnd, hours) else (hours, hoursEnd)
  if p.1 = p.2 then (p.1, 0) else p

/-- The time filter of the windowed queries.  With an explicit end bound the
window is half-open, `now - older ≤ collected_at < now - newer`; with the
bound omitted (`hours_end=None`) the code only demands
`collected_at ≥ now - hours` with no upper cutoff. -/
def inWindow (now hours : ℚ) (hoursEnd : Option ℚ) (a : ArticleRow) : Bool :=
  match hoursEnd with
  | some he =>
    let p := normalizeWindow hours he
    decide (now - p.1 ≤ a.collected_at) && decide (a.collected_at < now - p.2)
  | none => decide (now - hours ≤ a.collected_at)

/-- The `if sources:` filter of the queries — Python truthiness, so both
`None` and an empty list disable the source filter. -/
def applySources (sources : Option (List String)) (l : List ArticleRow) :
    List ArticleRow :=
  match sources with
  | some srcs =>
      if srcs.isEmpty then l else l.filter (fun a => srcs.contains a.source)
  | none => l

/-- The `ORDER BY collected_at DESC` of the queries, embedded as a
deterministic stable descending sort on the timestamp. -/
def orderByCollectedDesc (l : List ArticleRow) : List ArticleRow :=
  List.insertionSort (fun a b => b.collected_at ≤ a.collected_at) l

/-- Embeds `DatabaseManager.get_recent_articles`: time filter (normalized
two-bound window, or lower bound only when `hours_end is None`), optional
source filter, newest first. -/
def get_recent_articles (s : Store) (now hours : ℚ)
    (hoursEnd : Option ℚ) (sources : Option (List String)) : List ArticleRow :=
  orderByCollectedDesc
    (applySources sources (s.articles.filter (inWindow now hours hoursEnd)))

/-- One step of the SQL `GROUP BY category` count: bump the counter of `c`,
first come first listed. -/
def bumpCount : List (String × Nat) → String → List (String × Nat)
  | [], c => [(c, 1)]
  | (k, n) :: rest, c =>
      if k == c then (k, n + 1) :: rest else (k, n) :: bumpCount rest c

/-- The `GROUP BY`/`COUNT` aggregation over a list of category values. -/
def groupCount (cats : List String) : List (String × Nat) :=
  cats.foldl bumpCount []

/-- Embeds `DatabaseManager.get_category_distribution`: same window
normalization and source filter as `get_recent_articles`, plus the
`Article.category.isnot(None)` condition, then a grouped count per
category. -/
def get_category_distribution (s : Store) (now hours : ℚ)
    (hoursEnd : Option ℚ) (sources : Option (List String)) :
    List (String × Nat) :=
  groupCount
    ((applySources sources (s.articles.filter
        (fun a => inWindow now hours hoursEnd a && a.category.isSome))).filterMap
      (fun a => a.category))

/-- Total of the per-category counts of a distribution. -/
def sumCounts (m : List (String × Nat)) : Nat := (m.map (fun kv => kv.2)).sum

/-- A mutating store operation of the ingestion/categorization pipeline:
`add` is ingestion (`add_article(title, url, source)`, category and
sentiment left at their `None` defaults), `mark` is
`mark_article_processed`. -/
inductive StoreOp where
  | add (title url source : String) (now : ℚ)
  | mark (articleId : Nat) (category : Option String) (sentiment : Option ℚ)

/-- Interpretation of one store operation. -/
def applyOp (s : Store) : StoreOp → Store
  | .add title url source now => (add_article s title url source none none now).1
  | .mark articleId category sentiment =>
      mark_article_processed s articleId category sentiment

/-- Interpretation of an operation sequence. -/
def runOps (s : Store) (ops : List StoreOp) : Store := ops.foldl applyOp s

/-- An operation is well formed when any `mark` carries a truthy category
and a non-`None` sentiment, as the categorization pipeline always does
(`process_articles` passes a category string and a sentiment float). -/
def wellFormedOp : StoreOp → Bool
  | .add _ _ _ _ => true
  | .mark _ category sentiment => pyTruthyStr category && sentiment.isSome

/-- The data-model invariant: `processed=true` implies both category and
sentiment are set. -/
def processedInv (s : Store) : Bool :=
  s.articles.all (fun a =>
    !a.processed || (a.category.isSome && a.sentiment.isSome))

/-- Word characters of the regex `\b` assertion: `[a-zA-Z0-9_]`. -/
def isWordChar (c : Char) : Bool := c.isAlphanum || c == '_'

/-- A `\b` word boundary holds between two adjacent positions (string edges
rendered as `none`) when exactly one side is a word character. -/
def isBoundary (a b : Option Char) : Bool :=
  (match a with | none => false | some c => isWordChar c)
    != (match b with | none => false | some c => isWordChar c)

/-- Whether `\b kw \b` matches at the current position of the text, `prev`
being the character immediately before that position. -/
def matchesHere (prev : Option Char) (kw text : List Char) : Bool :=
  kw.isPrefixOf text
    && isBoundary prev text.head?
    && isBoundary kw.getLast? (text.drop kw.length).head?

/-- Embeds `len(re.findall(r'\b' + re.escape(kw) + r'\b', text))`: scan the
text left to right one character per step, counting non-overlapping
whole-word occurrences.  After a match of length `L` the next `L - 1`
characters are inside the match and are skipped (`skip` counter), as
`findall` resumes after the matched slice. -/
def countMatchesAux (kw : List Char) : Option Char → Nat → List Char → Nat
  | _, _, [] => 0
  | _, skip + 1, c :: rest => countMatchesAux kw (some c) skip rest
  | prev, 0, c :: rest =>
    if matchesHere prev kw (c :: rest) then
      1 + countMatchesAux kw (some c) (kw.length - 1) rest
    else
      countMatchesAux kw (some c) 0 rest

/-- Number of whole-word matches of `kw` in `text`. -/
def countWordMatches (kw text : List Char) : Nat :=
  countMatchesAux kw none 0 text

/-- Lowercased character list of a string (Python `str.lower()` on the
ASCII text handled here). -/
def lowerStr (s : String) : List Char := s.toList.map Char.toLower

/-- Match count of one keyword in a title, both lowercased — the
`re.findall` count of `_keyword_categorize` and `_fallback_predict`. -/
def keywordMatchCount (keyword title : String) : Nat :=
  countWordMatches (lowerStr keyword) (lowerStr title)

/-- Embeds `_keyword_matches` of `signal_detector.py` (`re.search`):
whether the keyword occurs as a whole word. -/
def keywordMatchB (keyword title : String) : Bool :=
  decide (0 < keywordMatchCount keyword title)

/-- The `CATEGORIES` table of `utils/config.py`: category name to weighted
keywords, in dictionary (insertion) order.  Float weights become exact
rationals. -/
def CATEGORIES : List (String × List (String × ℚ)) := [
  ("business", [
    ("business", 2), ("company", 2), ("corporate", 2), ("enterprise", 3/2),
    ("firm", 3/2), ("industry", 3/2), ("sector", 1), ("startup", 2),
    ("entrepreneur", 3/2), ("CEO", 2), ("MD", 3/2), ("chairman", 3/2),
    ("board", 1), ("shareholders", 2), ("profit", 2), ("revenue", 2),
    ("earnings", 2), ("sales", 3/2), ("turnover", 3/2), ("acquisition", 2),
    ("merger", 2), ("IPO", 5/2), ("listing", 3/2), ("dividend", 2),
    ("quarterly", 3/2), ("annual report", 2), ("conglomerate", 2),
    ("subsidiary", 3/2), ("joint venture", 2), ("franchise", 3/2),
    ("retail", 3/2), ("wholesale", 3/2), ("manufacturing", 3/2),
    ("supplier", 1), ("vendor", 1), ("contract", 1)]),
  ("finance", [
    ("bank", 2), ("banking", 2), ("loan", 2), ("credit", 3/2),
    ("insurance", 2), ("stock", 2), ("shares", 2), ("bond", 2),
    ("securities", 2), ("forex", 2), ("exchange rate", 2),
    ("interest rate", 2), ("central bank", 5/2), ("CBSL", 5/2),
    ("financial", 3/2), ("capital", 3/2), ("asset", 3/2), ("equity", 2),
    ("fund", 3/2), ("mutual fund", 2), ("hedge fund", 2),
    ("treasury", 2), ("liquidity", 3/2), ("yield", 3/2)]),
  ("economic", [
    ("economy", 5/2), ("economic", 2), ("inflation", 5/2), ("rupee", 2),
    ("trade", 3/2), ("export", 2), ("import", 2), ("GDP", 5/2),
    ("growth", 3/2), ("market", 3/2), ("investment", 2), ("budget", 2),
    ("tax", 3/2), ("fiscal", 2), ("monetary", 2), ("currency", 2),
    ("IMF", 5/2), ("World Bank", 5/2), ("credit rating", 5/2),
    ("recession", 5/2), ("deficit", 2), ("surplus", 2),
    ("tariff", 2), ("subsidy", 3/2), ("privatization", 2),
    ("FDI", 5/2), ("remittance", 2), ("balance of payments", 5/2)]),
  ("political", [
    ("government", 3/2), ("parliament", 2), ("minister", 3/2),
    ("president", 3/2), ("election", 5/2), ("politics", 2),
    ("opposition", 2), ("cabinet", 2), ("legislation", 2),
    ("policy", 1), ("political", 2), ("PM", 3/2), ("vote", 2),
    ("party", 3/2), ("coalition", 2), ("constitutional", 2),
    ("democracy", 3/2), ("referendum", 5/2)]),
  ("infrastructure", [
    ("infrastructure", 5/2), ("road", 3/2), ("highway", 2), ("port", 2),
    ("airport", 2), ("railway", 2), ("construction", 3/2),
    ("building", 1), ("development", 1), ("project", 1),
    ("transport", 3/2), ("metro", 2), ("bridge", 3/2),
    ("expressway", 2), ("terminal", 3/2), ("logistics", 3/2),
    ("real estate", 2), ("property", 3/2), ("housing", 3/2)]),
  ("energy", [
    ("energy", 2), ("power", 3/2), ("electricity", 2), ("fuel", 2),
    ("petroleum", 5/2), ("renewable", 2), ("solar", 2),
    ("wind", 3/2), ("coal", 2), ("CEB", 5/2), ("power cut", 5/2),
    ("blackout", 5/2), ("hydropower", 2), ("gas", 3/2), ("LNG", 5/2),
    ("oil", 2), ("refinery", 2), ("grid", 3/2)]),
  ("agriculture", [
    ("agriculture", 5/2), ("farming", 2), ("crop", 2), ("harvest", 2),
    ("fertilizer", 2), ("paddy", 2), ("tea", 2),
    ("rubber", 2), ("coconut", 2), ("farmer", 2), ("cultivation", 2),
    ("plantation", 2), ("agri", 2), ("fisheries", 2), ("livestock", 2),
    ("dairy", 3/2), ("organic", 3/2), ("export crop", 5/2)]),
  ("technology", [
    ("technology", 2), ("digital", 3/2), ("IT", 2), ("tech", 3/2),
    ("software", 2), ("app", 3/2), ("cyber", 2), ("5G", 5/2),
    ("AI", 5/2), ("automation", 2), ("fintech", 5/2), ("startup", 3/2),
    ("innovation", 3/2), ("blockchain", 5/2), ("cloud", 3/2),
    ("data center", 2), ("e-commerce", 2), ("BPO", 2)]),
  ("tourism", [
    ("tourism", 5/2), ("tourist", 2), ("hotel", 2), ("travel", 3/2),
    ("visitor", 3/2), ("destination", 3/2), ("resort", 2),
    ("hospitality", 2), ("airline", 2), ("vacation", 3/2),
    ("arrivals", 2), ("leisure", 3/2), ("booking", 3/2)]),
  ("sports", [
    ("cricket", 5/2), ("match", 3/2), ("player", 3/2), ("team", 1),
    ("game", 1), ("sports", 5/2), ("tournament", 2), ("hockey", 5/2),
    ("football", 5/2), ("rugby", 5/2), ("athletics", 2), ("olympic", 5/2),
    ("championship", 2), ("league", 3/2), ("cup", 3/2), ("coach", 3/2),
    ("captain", 3/2), ("innings", 5/2), ("wicket", 5/2), ("goal", 3/2),
    ("stadium", 3/2), ("fifa", 5/2), ("icc", 5/2)]),
  ("health", [
    ("health", 2), ("hospital", 2), ("medical", 2), ("doctor", 3/2),
    ("patient", 3/2), ("disease", 2), ("medicine", 3/2),
    ("healthcare", 2), ("clinic", 3/2), ("COVID", 5/2),
    ("pandemic", 5/2), ("vaccination", 2), ("pharma", 2)]),
  ("education", [
    ("education", 5/2), ("school", 3/2), ("university", 2), ("student", 3/2),
    ("teacher", 3/2), ("exam", 2), ("college", 3/2),
    ("academic", 3/2), ("learning", 1), ("educational", 2),
    ("scholarship", 2), ("campus", 3/2), ("degree", 3/2)]),
  ("environment", [
    ("environment", 5/2), ("climate", 2), ("pollution", 2), ("forest", 3/2),
    ("wildlife", 2), ("conservation", 2),
    ("green", 1), ("sustainable", 3/2), ("eco", 3/2), ("carbon", 2),
    ("flood", 2), ("drought", 2), ("disaster", 2),
    ("cyclone", 5/2), ("tsunami", 5/2), ("landslide", 2)]),
  ("security", [
    ("security", 3/2), ("police", 3/2), ("crime", 2), ("arrest", 2),
    ("military", 2), ("army", 2), ("navy", 2), ("force", 1),
    ("law", 1), ("justice", 3/2), ("court", 3/2), ("legal", 1),
    ("investigation", 3/2), ("terrorism", 5/2), ("defense", 2)]),
  ("social", [
    ("protest", 2), ("strike", 2), ("demonstration", 2), ("rally", 2),
    ("social", 1), ("community", 1), ("public", 1),
    ("civil", 3/2), ("rights", 3/2), ("welfare", 3/2), ("poverty", 2),
    ("unemployment", 2), ("labour", 3/2), ("union", 3/2)])]

/-- `CATEGORY_MIN_CONFIDENCE` of `utils/config.py`. -/
def CATEGORY_MIN_CONFIDENCE : ℚ := 3/10

/-- The inner scoring loop shared verbatim by `_keyword_categorize`
(`data_processor.py`) and `_fallback_predict` (`ml_classifier.py`): sum
`weight * matches` over the whole-word match counts of one category's
keywords. -/
def categoryScore (title : String) (kws : List (String × ℚ)) : ℚ :=
  kws.foldl (fun score kw =>
    let mcount := keywordMatchCount kw.1 title
    if 0 < mcount then score + kw.2 * (mcount : ℚ) else score) 0

/-- The `category_scores` dictionary (only categories with positive score,
in table order). -/
def keywordScores (title : String) : List (String × ℚ) :=
  CATEGORIES.filterMap (fun cat =>
    let score := categoryScore title cat.2
    if 0 < score then some (cat.1, score) else none)

/-- Python `max(items, key=lambda x: x[1])`: the first item with the
maximal second component. -/
def pyMaxBySnd (x : String × ℚ) (xs : List (String × ℚ)) : String × ℚ :=
  xs.foldl (fun b y => if b.2 < y.2 then y else b) x

/-- Embeds `DataProcessor._keyword_categorize`: best category and its share
of the total score, with the final fall-back-to-general guard when both the
confidence and the raw best score are low. -/
def keyword_categorize (title : String) : String × ℚ :=
  match keywordScores title with
  | [] => ("general", 0)
  | x :: xs =>
    let best := pyMaxBySnd x xs
    let total := ((x :: xs).map (fun kv => kv.2)).sum
    let confidence := if 0 < total then best.2 / total else 0
    if confidence < CATEGORY_MIN_CONFIDENCE ∧ best.2 < 3 then
      ("general", confidence)
    else (best.1, confidence)

/-- Embeds `MLClassifier._fallback_predict`: identical scoring, best pick
and confidence, but no low-confidence guard. -/
def fallback_predict (title : String) : String × ℚ :=
  match keywordScores title with
  | [] => ("general", 0)
  | x :: xs =>
    let best := pyMaxBySnd x xs
    let total := ((x :: xs).map (fun kv => kv.2)).sum
    let confidence := if 0 < total then best.2 / total else 0
    (best.1, confidence)

/-- Embeds `MLClassifier.predict`: with no usable model (sklearn missing,
never trained, or load failure) the call falls back to keyword prediction;
a trained sklearn pipeline is an opaque prediction function. -/
def ml_predict (model : Option (String → String × ℚ)) (title : String) :
    String × ℚ :=
  match model with
  | none => fallback_predict title
  | some m => m title

/-- The decision cascade of `categorize_article_with_confidence`
(`data_processor.py` lines 91-111), as a function of the keyword result and
the ML result (`(None, 0.0)` when the classifier is unavailable). -/
def hybrid_decision (kres : String × ℚ) (mres : Option String × ℚ) :
    String × ℚ :=
  match mres with
  | (some mc, mconf) =>
    if (1 : ℚ)/2 ≤ mconf then
      if kres.1 == mc then (mc, min 1 ((mconf + kres.2) / 2 + 1/5))
      else if (3 : ℚ)/5 ≤ kres.2 then (kres.1, kres.2)
      else (mc, mconf)
    else if (2 : ℚ)/5 ≤ kres.2 then (kres.1, kres.2)
    else if (3 : ℚ)/10 ≤ mconf then (mc, mconf)
    else (kres.1, kres.2)
  | (none, _) =>
    -- with ml_cat falsy only the keyword branches can fire, and both the
    -- `keyword_conf >= 0.4` branch and the final else return the keyword
    -- result unchanged
    (kres.1, kres.2)

/-- Embeds `DataProcessor.categorize_article_with_confidence`: the keyword
result is computed from the title, the ML result is the classifier's
output (or `(None, 0.0)`). -/
def categorize_article_with_confidence (mres : Option String × ℚ)
    (title : String) : String × ℚ :=
  hybrid_decision (keyword_categorize title) mres

/-- `RISK_KEYWORDS['high']` of `utils/config.py` (the duplicated
`emergency` entry is kept as in the source). -/
def RISK_HIGH : List String :=
  ["crisis", "emergency", "collapse", "disaster", "shortage", "critical",
   "emergency", "breakdown", "failure", "default", "bankrupt"]

/-- `RISK_KEYWORDS['medium']` of `utils/config.py`. -/
def RISK_MEDIUM : List String :=
  ["protest", "strike", "disruption", "delay", "concern", "warning", "risk",
   "threat", "decline", "drop", "fall", "decrease", "suspend"]

/-- `RISK_KEYWORDS['low']` of `utils/config.py`. -/
def RISK_LOW : List String :=
  ["issue", "problem", "challenge", "difficulty", "slow", "weak",
   "uncertain"]

/-- Whether any keyword of a tier has a whole-word match in the title. -/
def matchesAnyKeyword (kws : List String) (title : String) : Bool :=
  kws.any (fun kw => keywordMatchB kw title)

/-- Python `x or default` on an optional string field: `None` and the
empty string fall back to the default. -/
def pyOrStr (o : Option String) (dflt : String) : String :=
  match o with
  | none => dflt
  | some c => if c == "" then dflt else c

/-- One risk record of `detect_risks`. -/
structure Risk where
  severity : String
  description : String
  category : String
  source : String
  url : String
  detected_at : ℚ
  deriving Repr, DecidableEq

/-- The risk record emitted for one article at a given severity. -/
def mkRiskRecord (a : ArticleRow) (sev : String) : Risk :=
  { severity := sev, description := a.title,
    category := pyOrStr a.category "general",
    source := a.source, url := a.url, detected_at := a.collected_at }

/-- The for/else cascade of `detect_risks` for one article: the tiers are
tried high, then medium, then low, and the first whole-word match emits the
single record for that article; no tier match emits nothing. -/
def riskRecordOf (a : ArticleRow) : Option Risk :=
  if matchesAnyKeyword RISK_HIGH a.title then some (mkRiskRecord a "high")
  else if matchesAnyKeyword RISK_MEDIUM a.title then
    some (mkRiskRecord a "medium")
  else if matchesAnyKeyword RISK_LOW a.title then some (mkRiskRecord a "low")
  else none

/-- The `severity_order` dictionary used as the sort key (`high` 0,
`medium` 1, `low` 2; no other severities are ever constructed). -/
def severityRank (sev : String) : Nat :=
  if sev == "high" then 0
  else if sev == "medium" then 1
  else if sev == "low" then 2
  else 3

/-- Python's stable `risks.sort(key=lambda x: severity_order[x['severity']])`,
embedded as a stable insertion sort on the rank. -/
def sortBySeverity (risks : List Risk) : List Risk :=
  List.insertionSort
    (fun x y => severityRank x.severity ≤ severityRank y.severity) risks

/-- The body of `SignalDetector.detect_risks` applied to the window's
article list: one record per first-matching tier, then the stable
severity sort. -/
def detectRisksFrom (articles : List ArticleRow) : List Risk :=
  sortBySeverity (articles.filterMap riskRecordOf)

/-- Embeds `SignalDetector.detect_risks` over the store. -/
def detect_risks (s : Store) (now hoursStart hoursEnd : ℚ)
    (sources : Option (List String)) : List Risk :=
  detectRisksFrom (get_recent_articles s now hoursStart (some hoursEnd) sources)

/-- `ANOMALY_MULTIPLIER` of `utils/config.py`. -/
def ANOMALY_MULTIPLIER : ℚ := 5/2

/-- One anomaly record of `detect_anomalies`.  The Python record carries
the numbers formatted inside a description string; the embedding carries
the numbers themselves (`count`, `baselineAvg`), the `type`, the optional
category of a `category_spike`, and the severity. -/
structure Anomaly where
  atype : String
  count : Nat
  baselineAvg : ℚ
  category : Option String
  severity : String
  deriving Repr, DecidableEq

/-- Embeds `SignalDetector.detect_anomalies`.  Note the divisor of both
per-hour baselines is the literal `24` of the source, not
`hoursBaseline`. -/
def detect_anomalies (s : Store) (now hoursRecent hoursBaseline : ℚ) :
    List Anomaly :=
  let recentCount := (get_recent_articles s now hoursRecent none none).length
  let baselineAvg :=
    ((get_recent_articles s now hoursBaseline none none).length : ℚ) / 24
  let volume : List Anomaly :=
    if baselineAvg * ANOMALY_MULTIPLIER < (recentCount : ℚ) then
      [{ atype := "high_volume", count := recentCount,
         baselineAvg := baselineAvg, category := none, severity := "medium" }]
    else []
  let catDist := get_category_distribution s now hoursRecent none none
  let baselineDist := get_category_distribution s now hoursBaseline none none
  volume ++ catDist.filterMap (fun kv =>
    let baselineCount := (((List.lookup kv.1 baselineDist).getD 0 : Nat) : ℚ) / 24
    if baselineCount * ANOMALY_MULTIPLIER < (kv.2 : ℚ) ∧ 3 ≤ kv.2 then
      some { atype := "category_spike", count := kv.2,
             baselineAvg := baselineCount, category := some kv.1,
             severity := "low" }
    else none)

/-- Spec-side variant of `detect_anomalies`, following the spec sentence
that the per-hour normalization divisor must be the actual baseline window
length: identical except that both baselines divide by `hoursBaseline`
instead of the literal 24. -/
def detect_anomalies_spec (s : Store) (now hoursRecent hoursBaseline : ℚ) :
    List Anomaly :=
  let recentCount := (get_recent_articles s now hoursRecent none none).length
  let baselineAvg :=
    ((get_recent_articles s now hoursBaseline none none).length : ℚ)
      / hoursBaseline
  let volume : List Anomaly :=
    if baselineAvg * ANOMALY_MULTIPLIER < (recentCount : ℚ) then
      [{ atype := "high_volume", count := recentCount,
         baselineAvg := baselineAvg, category := none, severity := "medium" }]
    else []
  let catDist := get_category_distribution s now hoursRecent none none
  let baselineDist := get_category_distribution s now hoursBaseline none none
  volume ++ catDist.filterMap (fun kv =>
    let baselineCount :=
      (((List.lookup kv.1 baselineDist).getD 0 : Nat) : ℚ) / hoursBaseline
    if baselineCount * ANOMALY_MULTIPLIER < (kv.2 : ℚ) ∧ 3 ≤ kv.2 then
      some { atype := "category_spike", count := kv.2,
             baselineAvg := baselineCount, category := some kv.1,
             severity := "low" }
    else none)

/-- A store with 44 articles two hours old and 4 articles half an hour old
(at query instant 100): the 48-hour baseline window holds 48 articles, the
1-hour recent window holds 4. -/
def storeSpike : Store :=
  ⟨(List.range 44).map (fun i =>
      ⟨i + 1, "t", "", "ft", none, none, 98, false⟩)
    ++ (List.range 4).map (fun i =>
      ⟨i + 45, "t", "", "ft", none, none, 199/2, false⟩), 49⟩

/-- The anomaly that a correctly normalized 48-hour baseline yields on
`storeSpike`: 4 recent articles against a 1/hour baseline rate. -/
def spikeAnomaly : Anomaly :=
  { atype := "high_volume", count := 4, baselineAvg := 1,
    category := none, severity := "medium" }

/-- Helper: in a list with pairwise-distinct URLs, if some row carries URL
`u` then exactly one row survives the URL filter. -/
theorem filter_url_length_one {u : String} :
    ∀ l : List ArticleRow, (l.map (fun a => a.url)).Nodup →
      (∃ a ∈ l, a.url = u) →
      (l.filter (fun a => a.url == u)).length = 1 := by
  intro l
  induction l with
  | nil => intro _ h; obtain ⟨a, ha, _⟩ := h; cases ha
  | cons b rest ih =>
    intro hnd hex
    rw [List.map_cons, List.nodup_cons] at hnd
    obtain ⟨hbu, hrest⟩ := hnd
    obtain ⟨a, ha, hau⟩ := hex
    rcases List.mem_cons.mp ha with rfl | hmem
    · -- the head matches; no row of the tail can carry the same URL
      have hnone : rest.filter (fun x => x.url == a.url) = [] := by
        cases hf : rest.filter (fun x => x.url == a.url) with
        | nil => rfl
        | cons y ys =>
          have hy : y ∈ rest.filter (fun x => x.url == a.url) := by
            rw [hf]; exact List.mem_cons_self y ys
          have hy1 : y ∈ rest := List.mem_of_mem_filter hy
          have hy2 : y.url = a.url := by
            have := List.of_mem_filter hy
            simpa using this
          exact absurd (List.mem_map.mpr ⟨y, hy1, hy2⟩) hbu
      subst hau
      simp [List.filter_cons, hnone]
    · -- the match is inside the tail; the head cannot match
      have hb : ¬ b.url = u := by
        intro hcontra
        exact hbu (hcontra ▸ List.mem_map.mpr ⟨a, hmem, hau.symm ▸ rfl⟩)
      rw [List.filter_cons]
      simp only [beq_iff_eq, hb, if_neg, decide_eq_true_eq]
      have := ih hrest ⟨a, hmem, hau⟩
      simpa [hb] using this

/-- C3: calling `add_article` twice with the same URL leaves exactly one
stored row for that URL; the second call writes nothing (the store is
unchanged), cannot raise (the duplicate-key path is caught and rolled
back), and returns the `none` sentinel rather than an id. -/
theorem add_article_duplicate_url (s : Store) (hu : urlsNodup s)
    (t u src : String) (c : Option String) (sv : Option ℚ) (now : ℚ)
    (t2 src2 : String) (c2 : Option String) (sv2 : Option ℚ) (now2 : ℚ) :
    let r1 := add_article s t u src c sv now
    let r2 := add_article r1.1 t2 u src2 c2 sv2 now2
    r2.1 = r1.1 ∧ r2.2 = none ∧
      (r2.1.articles.filter (fun a => a.url == u)).length = 1 := by
  intro r1 r2
  by_cases h : s.articles.any (fun a => a.url == u) = true
  · -- the URL was already present: both calls are rejected
    have hr1 : r1 = (s, none) := by simp only [r1, add_article, h, if_pos]
    have hr2 : r2 = (s, none) := by
      simp only [r2, hr1, add_article, h, if_pos]
    refine ⟨by rw [hr1, hr2], by rw [hr2], ?_⟩
    rw [hr2]
    simp only [List.any_eq_true] at h
    obtain ⟨a0, ha0, ha0u⟩ := h
    exact filter_url_length_one s.articles hu ⟨a0, ha0, by simpa using ha0u⟩
  · -- the URL was fresh: the first call inserts it, the second is rejected
    have harts : r1.1.articles
        = s.articles ++ [newRow s t u src c sv now] := by
      simp only [r1, add_article, h, if_neg, Bool.not_eq_true]
    have h1 : r1.1.articles.any (fun a => a.url == u) = true := by
      rw [harts, List.any_append]
      simp [newRow]
    have hr2 : r2 = (r1.1, none) := by
      simp only [r2, add_article, h1, if_pos]
    refine ⟨by rw [hr2], by rw [hr2], ?_⟩
    rw [hr2]
    have hnd1 : (r1.1.articles.map (fun a => a.url)).Nodup := by
      rw [harts, List.map_append, List.nodup_append]
      refine ⟨hu, by simp, ?_⟩
      intro x hx
      simp only [List.map_cons, List.map_nil, List.mem_singleton]
      intro hxu
      subst hxu
      obtain ⟨a1, ha1, ha1u⟩ := List.mem_map.mp hx
      exact absurd (List.any_eq_true.mpr ⟨a1, ha1, by simp [ha1u]⟩) h
    refine filter_url_length_one r1.1.articles hnd1
      ⟨newRow s t u src c sv now, ?_, rfl⟩
    rw [harts]
    exact List.mem_append_right _ (List.mem_singleton.mpr rfl)

/-- C3 witness: a concrete double insertion of the same URL. -/
theorem add_article_duplicate_url_witness :
    (let s1 := (add_article emptyStore "a" "http://x" "ft" none none 5).1
     let r2 := add_article s1 "b" "http://x" "lbo" none none 6
     r2.1 = s1 ∧ r2.2 = none ∧
       (r2.1.articles.filter (fun a => a.url == "http://x")).length = 1) :=
  add_article_duplicate_url emptyStore (by decide) "a" "http://x" "ft"
    none none 5 "b" "lbo" none none 6

/-- Helper for C10: the row-update map of `mark_article_processed` is the
identity on a list containing no row with the target id. -/
theorem map_mark_missing_id (articleId : Nat) (category : Option String)
    (sentiment : Option ℚ) :
    ∀ l : List ArticleRow, (∀ a ∈ l, a.id ≠ articleId) →
      l.map (fun a =>
        if a.id == articleId then
          { a with
            processed := true,
            category := if pyTruthyStr category then category else a.category,
            sentiment := if sentiment.isSome then sentiment else a.sentiment }
        else a) = l := by
  intro l
  induction l with
  | nil => intro _; rfl
  | cons b rest ih =>
    intro h
    have hb : ¬ (b.id == articleId) = true := by
      simpa using h b (List.mem_cons_self b rest)
    rw [List.map_cons, if_neg hb, ih (fun a ha => h a (List.mem_cons_of_mem b ha))]

/-- C10: marking an id that identifies no stored article changes nothing. -/
theorem mark_article_processed_missing_id (s : Store) (articleId : Nat)
    (category : Option String) (sentiment : Option ℚ)
    (h : ∀ a ∈ s.articles, a.id ≠ articleId) :
    mark_article_processed s articleId category sentiment = s := by
  obtain ⟨arts, nid⟩ := s
  simp only [mark_article_processed]
  congr 1
  exact map_mark_missing_id articleId category sentiment arts (by simpa using h)

/-- C10 witness: marking a nonexistent id on a concrete one-row store. -/
theorem mark_article_processed_missing_id_witness :
    mark_article_processed
      (add_article emptyStore "t" "u" "s" none none 0).1 99
      (some "finance") (some (1/2))
      = (add_article emptyStore "t" "u" "s" none none 0).1 :=
  mark_article_processed_missing_id _ 99 (some "finance") (some (1/2))
    (by decide)

/-- Helper: the two orders of the same pair of bounds normalize alike. -/
theorem normalizeWindow_comm (a b : ℚ) :
    normalizeWindow a b = normalizeWindow b a := by
  rcases lt_trichotomy a b with h1 | h1 | h1
  · simp [normalizeWindow, h1, asymm h1]
  · subst h1; rfl
  · simp [normalizeWindow, h1, asymm h1]

/-- C4: a windowed query with reversed bounds returns the identical result
sequence, and equal bounds normalize to "newer bound 0". -/
theorem get_recent_articles_reversed_bounds (s : Store) (now : ℚ)
    (sources : Option (List String)) (a b : ℚ) :
    get_recent_articles s now a (some b) sources
        = get_recent_articles s now b (some a) sources
    ∧ normalizeWindow a a = (a, 0) := by
  constructor
  · have hpred : inWindow now a (some b) = inWindow now b (some a) := by
      funext x
      simp only [inWindow, normalizeWindow_comm a b]
    simp only [get_recent_articles, hpred]
  · simp [normalizeWindow]

/-- Helper: filters agreeing on every member filter alike. -/
theorem filter_congr_mem {α : Type} (p q : α → Bool) :
    ∀ l : List α, (∀ x ∈ l, p x = q x) → l.filter p = l.filter q := by
  intro l h
  exact List.filter_congr h

/-- A concrete store holding a single article whose `collected_at` equals
the query instant. -/
def storeAtNow : Store := ⟨[⟨1, "t", "u", "ft", none, none, 0, false⟩], 2⟩

/-- C8 counterexample: at `now = 0` the article timestamped `0` is returned
by `queryWindow(24)` (the omitted-bound branch has no upper cutoff) but not
by `queryWindow(24, 0)` (whose window is half-open below `now`), so the two
calls differ on this store. -/
theorem get_recent_articles_omitted_end_counterexample :
    get_recent_articles storeAtNow 0 24 none none
      ≠ get_recent_articles storeAtNow 0 24 (some 0) none := by decide

/-- C8 amended: provided every stored article is strictly older than the
query instant, the windowed query with the newer bound omitted returns the
same sequence as the one with newer bound 0. -/
theorem get_recent_articles_omitted_end (s : Store) (now : ℚ)
    (sources : Option (List String)) (h : ℚ)
    (hpast : ∀ a ∈ s.articles, a.collected_at < now) :
    get_recent_articles s now h none sources
      = get_recent_articles s now h (some 0) sources := by
  unfold get_recent_articles
  congr 1
  congr 1
  apply filter_congr_mem
  intro x hx
  have hlt : x.collected_at < now := hpast x hx
  rcases lt_trichotomy h 0 with h1 | h1 | h1
  · -- negative bound: both windows are empty below `now`
    have hw : normalizeWindow h 0 = (0, h) := by
      have hne : ¬ ((0 : ℚ) = h) := fun hc => absurd hc.symm (ne_of_lt h1)
      simp [normalizeWindow, h1, hne]
    simp only [inWindow, hw]
    rw [decide_eq_false (by linarith : ¬ (now - h ≤ x.collected_at)),
      decide_eq_false (by linarith : ¬ (now - 0 ≤ x.collected_at))]
    simp
  · -- zero bound: both windows are empty below `now`
    subst h1
    have hw : normalizeWindow 0 0 = (0, 0) := by simp [normalizeWindow]
    simp only [inWindow, hw]
    rw [decide_eq_false (by linarith : ¬ (now - 0 ≤ x.collected_at))]
    simp
  · -- positive bound: the upper cutoff `collected_at < now` never bites
    have hw : normalizeWindow h 0 = (h, 0) := by
      have hnlt : ¬ (h < 0) := not_lt_of_gt h1
      have hne : ¬ (h = 0) := ne_of_gt h1
      simp [normalizeWindow, hnlt, hne]
    simp only [inWindow, hw]
    rw [decide_eq_true (by linarith : x.collected_at < now - 0)]
    simp

/-- C8 witness: a store whose single article is strictly in the past. -/
theorem get_recent_articles_omitted_end_witness :
    get_recent_articles ⟨[⟨1, "t", "u", "ft", none, none, -1, false⟩], 2⟩ 0 24
        none none
      = get_recent_articles ⟨[⟨1, "t", "u", "ft", none, none, -1, false⟩], 2⟩ 0
        24 (some 0) none :=
  get_recent_articles_omitted_end _ 0 none 24 (by decide)

/-- Helper: bumping one category's counter grows the total by one. -/
theorem sumCounts_bumpCount (c : String) :
    ∀ m : List (String × Nat), sumCounts (bumpCount m c) = sumCounts m + 1 := by
  intro m
  induction m with
  | nil => rfl
  | cons kv rest ih =>
    obtain ⟨k, n⟩ := kv
    by_cases hk : (k == c) = true
    · simp only [bumpCount, hk, if_pos, sumCounts, List.map_cons, List.sum_cons]
      omega
    · simp only [bumpCount, hk, if_neg, Bool.false_eq_true, not_false_iff,
        sumCounts, List.map_cons, List.sum_cons] at *
      omega

/-- Helper: the grouped counts total the number of grouped values. -/
theorem sumCounts_groupCount (cats : List String) :
    sumCounts (groupCount cats) = cats.length := by
  suffices haux : ∀ (cs : List String) (m : List (String × Nat)),
      sumCounts (cs.foldl bumpCount m) = sumCounts m + cs.length by
    simpa [groupCount, sumCounts] using haux cats []
  intro cs
  induction cs with
  | nil => intro m; simp
  | cons c rest ih =>
    intro m
    simp only [List.foldl_cons, ih, sumCounts_bumpCount, List.length_cons]
    omega

/-- Helper: extracting the category of rows that all have one keeps the
length. -/
theorem length_filterMap_category :
    ∀ l : List ArticleRow, (∀ a ∈ l, a.category.isSome = true) →
      (l.filterMap (fun a => a.category)).length = l.length := by
  intro l
  induction l with
  | nil => intro _; rfl
  | cons a rest ih =>
    intro h
    obtain ⟨c, hc⟩ := Option.isSome_iff_exists.mp (h a (List.mem_cons_self a rest))
    rw [List.filterMap_cons, hc, List.length_cons,
      ih (fun b hb => h b (List.mem_cons_of_mem a hb))]
    rfl

/-- Helper: the source filter only keeps elements of its input. -/
theorem mem_of_mem_applySources {x : ArticleRow}
    {sources : Option (List String)} {l : List ArticleRow}
    (hx : x ∈ applySources sources l) : x ∈ l := by
  rcases sources with _ | srcs
  · exact hx
  · by_cases he : srcs.isEmpty
    · simpa [applySources, he] using hx
    · simp only [applySources, he, if_neg, Bool.false_eq_true, not_false_iff] at hx
      exact List.mem_of_mem_filter hx

/-- C7: the values of the category distribution sum to the number of
processed articles of the window (and source filter) whose category is
non-null — assuming the data-model invariant that a set category implies a
processed article, which ingestion (category `None`) and categorization
(sets `processed`) both preserve. -/
theorem get_category_distribution_sum (s : Store) (now hours : ℚ)
    (hoursEnd : Option ℚ) (sources : Option (List String))
    (hinv : ∀ a ∈ s.articles, a.category.isSome = true → a.processed = true) :
    sumCounts (get_category_distribution s now hours hoursEnd sources)
      = ((get_recent_articles s now hours hoursEnd sources).filter
          (fun a => a.processed && a.category.isSome)).length := by
  have hL : sumCounts (get_category_distribution s now hours hoursEnd sources)
      = (applySources sources (s.articles.filter
          (fun a => inWindow now hours hoursEnd a && a.category.isSome))).length := by
    unfold get_category_distribution
    rw [sumCounts_groupCount]
    apply length_filterMap_category
    intro a ha
    have hmem := mem_of_mem_applySources ha
    have := List.of_mem_filter hmem
    exact (Bool.and_eq_true_iff.mp this).2
  have hR : ((get_recent_articles s now hours hoursEnd sources).filter
        (fun a => a.processed && a.category.isSome)).length
      = ((applySources sources (s.articles.filter
          (inWindow now hours hoursEnd))).filter
          (fun a => a.processed && a.category.isSome)).length := by
    unfold get_recent_articles orderByCollectedDesc
    exact ((List.perm_insertionSort _ _).filter _).length_eq
  rw [hL, hR]
  rcases sources with _ | srcs
  · simp only [applySources, List.filter_filter]
    apply congrArg List.length
    apply filter_congr_mem
    intro a ha
    cases hs : a.category.isSome
    · simp [hs]
    · simp [hs, hinv a ha hs]
  · by_cases he : srcs.isEmpty
    · simp only [applySources, he, if_pos, List.filter_filter]
      apply congrArg List.length
      apply filter_congr_mem
      intro a ha
      cases hs : a.category.isSome
      · simp [hs]
      · simp [hs, hinv a ha hs]
    · simp only [applySources, he, if_neg, Bool.false_eq_true, not_false_iff,
        List.filter_filter]
      apply congrArg List.length
      apply filter_congr_mem
      intro a ha
      cases hs : a.category.isSome
      · simp [hs]
      · simp [hs, hinv a ha hs]

/-- C7 witness: a two-row store (one processed article with a category, one
unprocessed without) satisfying the invariant. -/
theorem get_category_distribution_sum_witness :
    sumCounts (get_category_distribution
        ⟨[⟨1, "a", "u1", "ft", some "finance", some 1, -1, true⟩,
          ⟨2, "b", "u2", "ft", none, none, -2, false⟩], 3⟩ 0 24 (some 0) none)
      = ((get_recent_articles
          ⟨[⟨1, "a", "u1", "ft", some "finance", some 1, -1, true⟩,
            ⟨2, "b", "u2", "ft", none, none, -2, false⟩], 3⟩ 0 24 (some 0)
          none).filter (fun a => a.processed && a.category.isSome)).length :=
  get_category_distribution_sum _ 0 24 (some 0) none (by decide)

/-- C2 counterexample: `mark_article_processed` called with the default
`None` category and sentiment (allowed by its signature) marks the article
processed while leaving category and sentiment unset. -/
theorem mark_article_processed_defaults_counterexample :
    ¬ (∀ a ∈ (mark_article_processed
          (add_article emptyStore "t" "u" "ft" none none 0).1
          1 none none).articles,
        a.processed = true →
          a.category.isSome = true ∧ a.sentiment.isSome = true) := by
  decide

/-- Helper for C2: one well-formed operation preserves the invariant. -/
theorem processedInv_applyOp (s : Store) (op : StoreOp)
    (hs : processedInv s = true) (hop : wellFormedOp op = true) :
    processedInv (applyOp s op) = true := by
  cases op with
  | add title url source now =>
    simp only [applyOp, add_article]
    by_cases hdup : s.articles.any (fun a => a.url == url) = true
    · simpa [hdup] using hs
    · simp only [hdup, Bool.false_eq_true, if_neg, not_false_iff]
      simp only [processedInv, List.all_append, Bool.and_eq_true] at *
      exact ⟨hs, by simp [newRow]⟩
  | mark articleId category sentiment =>
    simp only [wellFormedOp, Bool.and_eq_true] at hop
    obtain ⟨hcat, hsent⟩ := hop
    have hcat2 : category.isSome = true := by
      cases category with
      | none => simp [pyTruthyStr] at hcat
      | some c => rfl
    simp only [applyOp, mark_article_processed, processedInv, List.all_map,
      List.all_eq_true] at *
    intro a ha
    by_cases hid : (a.id == articleId) = true
    · simp only [Function.comp_apply, hid, if_pos, hcat, hsent, if_pos,
        Bool.not_true, hcat2, Option.isSome_some, Bool.and_self,
        Bool.or_true]
    · simp only [Function.comp_apply, hid, if_neg, Bool.false_eq_true,
        not_false_iff]
      exact hs a ha

/-- C2 amended: starting from any store satisfying the invariant, every
sequence of pipeline operations in which each `mark_article_processed` call
carries a truthy category and a non-`None` sentiment leaves every processed
article with both category and sentiment set. -/
theorem processedInv_runOps (s : Store) (ops : List StoreOp)
    (hs : processedInv s = true)
    (hops : ∀ op ∈ ops, wellFormedOp op = true) :
    processedInv (runOps s ops) = true := by
  induction ops generalizing s with
  | nil => exact hs
  | cons op rest ih =>
    simp only [runOps, List.foldl_cons]
    exact ih (applyOp s op)
      (processedInv_applyOp s op hs (hops op (List.mem_cons_self op rest)))
      (fun o ho => hops o (List.mem_cons_of_mem op ho))

/-- C1 counterexample: on a title whose lexical result is exactly
`("finance", 0.6)`, with a statistical result `("finance", 0.7)`, the
arbiter returns confidence `(0.7 + 0.6)/2 + 0.2 = 0.85`, not `1.0` — the
agreement-bonus average plus bonus does not reach the cap here. -/
theorem arbiter_agreement_counterexample :
    keyword_categorize "financial capital asset trade growth"
        = ("finance", 3/5)
    ∧ categorize_article_with_confidence (some "finance", 7/10)
        "financial capital asset trade growth" ≠ ("finance", 1) := by
  constructor
  · decide
  · decide

/-- C1 amended: with lexical result `("finance", 0.6)` and statistical
result `("finance", 0.7)`, the arbiter returns `("finance", 0.85)` — that
is `min(1.0, (0.7+0.6)/2 + 0.2)`, which equals `0.85`, not `1.0`. -/
theorem arbiter_agreement_bonus (title : String) (mres : Option String × ℚ)
    (hk : keyword_categorize title = ("finance", 3/5))
    (hm : mres = (some "finance", 7/10)) :
    categorize_article_with_confidence mres title = ("finance", 17/20) := by
  unfold categorize_article_with_confidence
  rw [hk, hm]
  decide

/-- C1 witness: a concrete title realizing lexical `("finance", 0.6)`. -/
theorem arbiter_agreement_bonus_witness :
    categorize_article_with_confidence (some "finance", 7/10)
      "financial capital asset trade growth" = ("finance", 17/20) :=
  arbiter_agreement_bonus "financial capital asset trade growth"
    (some "finance", 7/10) (by decide) rfl

/-- C6 counterexample: on a low-signal four-way tie the lexical categorizer
of 4.2 applies its fall-back-to-general guard (confidence 0.25 < 0.3 and
best score 1 < 3) and returns `("general", 0.25)`, while the untrained
classifier's fallback returns the raw best `("business", 0.25)` — the
guard is absent from `_fallback_predict`. -/
theorem ml_fallback_differs_counterexample :
    ml_predict none "board policy building green" = ("business", 1/4)
    ∧ keyword_categorize "board policy building green" = ("general", 1/4)
    ∧ ml_predict none "board policy building green"
        ≠ keyword_categorize "board policy building green" := by
  refine ⟨by decide, by decide, by decide⟩

/-- C6 amended: the untrained/unavailable prediction path agrees with the
lexical categorizer of 4.2 in confidence always, and in category except
when 4.2 takes its final low-confidence fallback to `general` (the
no-keyword case `("general", 0.0)` included). -/
theorem ml_fallback_agrees_up_to_guard (title : String) :
    (ml_predict none title).2 = (keyword_categorize title).2
    ∧ ((ml_predict none title).1 = (keyword_categorize title).1
        ∨ (keyword_categorize title).1 = "general") := by
  simp only [ml_predict, fallback_predict, keyword_categorize]
  cases hs : keywordScores title with
  | nil => simp
  | cons x xs =>
    simp only []
    split <;> (split <;> simp)

/-- Helper: inserting an element related to everything goes to the front. -/
theorem orderedInsert_all_le {α : Type} (r : α → α → Prop) [DecidableRel r]
    (a : α) : ∀ l : List α, (∀ y ∈ l, r a y) →
      List.orderedInsert r a l = a :: l := by
  intro l h
  cases l with
  | nil => rfl
  | cons b t =>
    simp only [List.orderedInsert, if_pos (h b (List.mem_cons_self b t))]

/-- Helper: inserting an element unrelated to a whole block skips it. -/
theorem orderedInsert_append_not {α : Type} (r : α → α → Prop)
    [DecidableRel r] (a : α) :
    ∀ xs ys : List α, (∀ x ∈ xs, ¬ r a x) →
      List.orderedInsert r a (xs ++ ys) = xs ++ List.orderedInsert r a ys := by
  intro xs
  induction xs with
  | nil => intro ys _; rfl
  | cons x t ih =>
    intro ys h
    simp only [List.cons_append, List.orderedInsert,
      if_neg (h x (List.mem_cons_self x t))]
    exact congrArg (fun l => x :: l)
      (ih ys (fun z hz => h z (List.mem_cons_of_mem x hz)))

/-- Helper: a stable insertion sort on a three-valued rank is exactly the
concatenation of the three rank buckets in original order. -/
theorem insertionSort_rank_buckets {α : Type} (f : α → Nat) :
    ∀ l : List α, (∀ x ∈ l, f x ≤ 2) →
      List.insertionSort (fun x y => f x ≤ f y) l
        = l.filter (fun x => f x == 0) ++ l.filter (fun x => f x == 1)
          ++ l.filter (fun x => f x == 2) := by
  intro l
  induction l with
  | nil => intro _; rfl
  | cons a t ih =>
    intro h
    have ht : ∀ x ∈ t, f x ≤ 2 := fun x hx => h x (List.mem_cons_of_mem a hx)
    have ha : f a ≤ 2 := h a (List.mem_cons_self a t)
    rw [List.insertionSort, ih ht]
    have hF0 : ∀ x ∈ t.filter (fun x => f x == 0), f x = 0 := fun x hx => by
      simpa using List.of_mem_filter hx
    have hF1 : ∀ x ∈ t.filter (fun x => f x == 1), f x = 1 := fun x hx => by
      simpa using List.of_mem_filter hx
    have hF2 : ∀ x ∈ t.filter (fun x => f x == 2), f x = 2 := fun x hx => by
      simpa using List.of_mem_filter hx
    rcases (by omega : f a = 0 ∨ f a = 1 ∨ f a = 2) with h0 | h1 | h2
    · rw [orderedInsert_all_le _ a _ (fun y _ => by rw [h0]; exact Nat.zero_le _)]
      rw [List.filter_cons, List.filter_cons, List.filter_cons]
      simp [h0, List.cons_append]
    · rw [List.append_assoc,
        orderedInsert_append_not _ a _ _
          (fun x hx => by rw [h1, hF0 x hx]; omega),
        orderedInsert_all_le _ a _
          (fun y hy => by
            rcases List.mem_append.mp hy with hy1 | hy2
            · rw [h1, hF1 y hy1]
            · rw [h1, hF2 y hy2]; omega)]
      rw [List.filter_cons, List.filter_cons, List.filter_cons]
      simp [h1, List.cons_append, List.append_assoc]
    · rw [List.append_assoc,
        orderedInsert_append_not _ a _ _
          (fun x hx => by rw [h2, hF0 x hx]; omega)]
      rw [orderedInsert_append_not _ a _ _
          (fun x hx => by rw [h2, hF1 x hx]; omega),
        orderedInsert_all_le _ a _ (fun y hy => by rw [h2, hF2 y hy])]
      rw [List.filter_cons, List.filter_cons, List.filter_cons]
      simp [h2, List.cons_append, List.append_assoc]

/-- Helper: a record emitted by `riskRecordOf` carries one of the three
severities. -/
theorem severity_riskRecordOf {a : ArticleRow} {r : Risk}
    (h : riskRecordOf a = some r) :
    r.severity = "high" ∨ r.severity = "medium" ∨ r.severity = "low" := by
  unfold riskRecordOf at h
  split at h
  · cases h; exact Or.inl rfl
  · split at h
    · cases h; exact Or.inr (Or.inl rfl)
    · split at h
      · cases h; exact Or.inr (Or.inr rfl)
      · cases h

/-- C9: each article in the window yields at most one risk record, its
severity given by the first matching tier in the order high, medium, low
(an article matching both a high and a medium keyword gets only the high
record), and the emitted list is the high bucket, then the medium bucket,
then the low bucket, each in original article order (Python's stable
sort). -/
theorem detect_risks_first_match_tier_sorted (arts : List ArticleRow)
    (a : ArticleRow) :
    ((matchesAnyKeyword RISK_HIGH a.title = true →
        riskRecordOf a = some (mkRiskRecord a "high"))
      ∧ (matchesAnyKeyword RISK_HIGH a.title = false →
          matchesAnyKeyword RISK_MEDIUM a.title = true →
          riskRecordOf a = some (mkRiskRecord a "medium"))
      ∧ (matchesAnyKeyword RISK_HIGH a.title = false →
          matchesAnyKeyword RISK_MEDIUM a.title = false →
          matchesAnyKeyword RISK_LOW a.title = true →
          riskRecordOf a = some (mkRiskRecord a "low"))
      ∧ (matchesAnyKeyword RISK_HIGH a.title = false →
          matchesAnyKeyword RISK_MEDIUM a.title = false →
          matchesAnyKeyword RISK_LOW a.title = false →
          riskRecordOf a = none))
    ∧ detectRisksFrom arts
        = (arts.filterMap riskRecordOf).filter (fun r => r.severity == "high")
          ++ (arts.filterMap riskRecordOf).filter
              (fun r => r.severity == "medium")
          ++ (arts.filterMap riskRecordOf).filter
              (fun r => r.severity == "low") := by
  constructor
  · refine ⟨fun h1 => ?_, fun h1 h2 => ?_, fun h1 h2 h3 => ?_,
      fun h1 h2 h3 => ?_⟩
    · simp [riskRecordOf, h1]
    · simp [riskRecordOf, h1, h2]
    · simp [riskRecordOf, h1, h2, h3]
    · simp [riskRecordOf, h1, h2, h3]
  · unfold detectRisksFrom sortBySeverity
    have hsev : ∀ r ∈ arts.filterMap riskRecordOf,
        r.severity = "high" ∨ r.severity = "medium" ∨ r.severity = "low" := by
      intro r hr
      obtain ⟨b, _, hb⟩ := List.mem_filterMap.mp hr
      exact severity_riskRecordOf hb
    have hrank : ∀ r ∈ arts.filterMap riskRecordOf,
        severityRank r.severity ≤ 2 := by
      intro r hr
      rcases hsev r hr with h | h | h <;> rw [h] <;> decide
    have hb := insertionSort_rank_buckets
      (fun r : Risk => severityRank r.severity) (arts.filterMap riskRecordOf)
      hrank
    rw [hb]
    have e0 : (arts.filterMap riskRecordOf).filter
          (fun r => severityRank r.severity == 0)
        = (arts.filterMap riskRecordOf).filter
          (fun r => r.severity == "high") := by
      apply filter_congr_mem
      intro r hr
      rcases hsev r hr with h | h | h <;> rw [h] <;> rfl
    have e1 : (arts.filterMap riskRecordOf).filter
          (fun r => severityRank r.severity == 1)
        = (arts.filterMap riskRecordOf).filter
          (fun r => r.severity == "medium") := by
      apply filter_congr_mem
      intro r hr
      rcases hsev r hr with h | h | h <;> rw [h] <;> rfl
    have e2 : (arts.filterMap riskRecordOf).filter
          (fun r => severityRank r.severity == 2)
        = (arts.filterMap riskRecordOf).filter
          (fun r => r.severity == "low") := by
      apply filter_congr_mem
      intro r hr
      rcases hsev r hr with h | h | h <;> rw [h] <;> rfl
    rw [e0, e1, e2]

/-- C9 witness: a title matching both a high keyword (`crisis`) and a
medium keyword (`warning`) yields the single high-severity record. -/
theorem detect_risks_witness :
    riskRecordOf ⟨1, "crisis warning issued", "u", "ft", none, none, 0, false⟩
        = some (mkRiskRecord
            ⟨1, "crisis warning issued", "u", "ft", none, none, 0, false⟩
            "high")
    ∧ detectRisksFrom
        [⟨1, "crisis warning issued", "u", "ft", none, none, 0, false⟩]
      = (([⟨1, "crisis warning issued", "u", "ft", none, none, 0,
            false⟩] : List ArticleRow).filterMap riskRecordOf).filter
            (fun r => r.severity == "high")
        ++ (([⟨1, "crisis warning issued", "u", "ft", none, none, 0,
            false⟩] : List ArticleRow).filterMap riskRecordOf).filter
            (fun r => r.severity == "medium")
        ++ (([⟨1, "crisis warning issued", "u", "ft", none, none, 0,
            false⟩] : List ArticleRow).filterMap riskRecordOf).filter
            (fun r => r.severity == "low") :=
  ⟨(detect_risks_first_match_tier_sorted
      [⟨1, "crisis warning issued", "u", "ft", none, none, 0, false⟩]
      ⟨1, "crisis warning issued", "u", "ft", none, none, 0, false⟩).1.1
    (by decide),
   (detect_risks_first_match_tier_sorted
      [⟨1, "crisis warning issued", "u", "ft", none, none, 0, false⟩]
      ⟨1, "crisis warning issued", "u", "ft", none, none, 0, false⟩).2⟩

/-- C5: `detect_anomalies` divides the baseline counts by the literal 24
whatever `hours_baseline` is.  On `storeSpike` with a 48-hour baseline the
code computes a baseline rate of 48/24 = 2 per hour and emits nothing
(4 is not above 2 x 2.5), while the spec-mandated normalization by the
actual window length computes 48/48 = 1 per hour and emits the
`high_volume` anomaly (4 above 1 x 2.5). -/
theorem detect_anomalies_hardcoded_divisor :
    detect_anomalies storeSpike 100 1 48 = []
    ∧ detect_anomalies_spec storeSpike 100 1 48 = [spikeAnomaly] := by
  constructor
  · decide
  · decide

/-- C2 witness: ingestion followed by a well-formed categorization mark. -/
theorem processedInv_runOps_witness :
    processedInv (runOps emptyStore
      [.add "t" "u" "ft" 0, .mark 1 (some "finance") (some (1/2))]) = true :=
  processedInv_runOps emptyStore
    [.add "t" "u" "ft" 0, .mark 1 (some "finance") (some (1/2))]
    (by decide) (by decide)

end

end NewsIntel
